/-
  Verification of the request-authentication and agent-construction core of
  the binance-cryptoexchange-api client library (src/index.ts, two released
  variants: the basic variant and the recvWindow variant).

  The TypeScript source is shallowly embedded: JavaScript objects whose key
  insertion order matters (post bodies, headers) are association lists over
  String keys; JS object spread is modelled by jsInsert / jsSpread (an
  existing key keeps its position and is overwritten, a new key is appended);
  the wall clock (Date.now()) is an explicit parameter; qs.stringify is
  modelled with its documented default behaviour (encodeURIComponent-style
  percent encoding, keys joined in insertion order with an ampersand);
  crypto.createHmac("sha256", secret).update(m).digest("hex") is modelled by
  an abstract deterministic function of the key and message - the theorems
  below depend only on which bytes are hashed, never on the hash value
  itself.  Fallible paths (promise rejection) are Except.
-/
import Mathlib

/-- Scalar values allowed in an IPostBody (string | number | boolean). -/
inductive Value where
  | str (s : String)
  | num (n : Int)
  | bool (b : Bool)
deriving DecidableEq, Repr

/-- The post body shape (interface IPostBody): a JS object of scalars,
modelled as an association list in key insertion order. -/
abbrev PostBody := List (String × Value)

/-- Does the JS object have the key (insertion-order association list)? -/
def keysMem {α : Type} : List (String × α) → String → Bool
  | [], _ => false
  | p :: rest, k => if p.1 = k then true else keysMem rest k

/-- JS property read on an object modelled as an association list. -/
def lookupKV {α : Type} : List (String × α) → String → Option α
  | [], _ => none
  | p :: rest, k => if p.1 = k then some p.2 else lookupKV rest k

/-- JS object update as performed by an object-literal spread: an existing
key keeps its position and is overwritten, a new key is appended last. -/
def jsInsert {α : Type} (m : List (String × α)) (k : String) (v : α) :
    List (String × α) :=
  if keysMem m k then m.map (fun p => if p.1 = k then (k, v) else p)
  else m ++ [(k, v)]

/-- JS spread of object b into object a, key by key in b's order. -/
def jsSpread {α : Type} (a b : List (String × α)) : List (String × α) :=
  b.foldl (fun acc p => jsInsert acc p.1 p.2) a

/-- Removal of a key (the comparison body used by the stale-signature
analysis: the same object with one key deleted). -/
def jsErase {α : Type} (m : List (String × α)) (k : String) :
    List (String × α) :=
  m.filter (fun p => decide (p.1 ≠ k))

/-- Well-formed JS object: no duplicate keys. -/
def keysNodup {α : Type} (m : List (String × α)) : Prop :=
  (m.map Prod.fst).Nodup

/-- Characters left unencoded by the qs default encoder
(encodeURIComponent): letters, digits, hyphen, underscore, dot,
exclamation, tilde, asterisk, apostrophe, parentheses. -/
def isUnreserved (c : Char) : Bool :=
  let n := c.toNat
  (65 ≤ n && n ≤ 90) || (97 ≤ n && n ≤ 122) || (48 ≤ n && n ≤ 57) ||
  n = 45 || n = 95 || n = 46 || n = 33 || n = 126 || n = 42 || n = 39 ||
  n = 40 || n = 41

/-- UTF-8 bytes of a code point. -/
def utf8Bytes (n : Nat) : List Nat :=
  if n < 128 then [n]
  else if n < 2048 then [192 + n / 64, 128 + n % 64]
  else if n < 65536 then [224 + n / 4096, 128 + (n / 64) % 64, 128 + n % 64]
  else [240 + n / 262144, 128 + (n / 4096) % 64, 128 + (n / 64) % 64,
        128 + n % 64]

/-- Uppercase hexadecimal digit. -/
def hexDigit : Nat → Char
  | 0 => '0' | 1 => '1' | 2 => '2' | 3 => '3' | 4 => '4'
  | 5 => '5' | 6 => '6' | 7 => '7' | 8 => '8' | 9 => '9'
  | 10 => 'A' | 11 => 'B' | 12 => 'C' | 13 => 'D' | 14 => 'E' | 15 => 'F'
  | _ => '0'

/-- Percent-encoding of one character as performed by the qs encoder. -/
def encodeChar (c : Char) : List Char :=
  if isUnreserved c then [c]
  else (utf8Bytes c.toNat).flatMap
    (fun b => ['%', hexDigit (b / 16), hexDigit (b % 16)])

/-- qs / encodeURIComponent percent-encoding of a string. -/
def percentEncode (s : String) : String :=
  ⟨s.data.flatMap encodeChar⟩

/-- How qs.stringify renders a scalar value before encoding it. -/
def valueToStr : Value → String
  | Value.str s => s
  | Value.num n => toString n
  | Value.bool b => if b then "true" else "false"

/-- One key=value pair of the qs.stringify output. -/
def encodePair (p : String × Value) : String :=
  percentEncode p.1 ++ "=" ++ percentEncode (valueToStr p.2)

/-- Join the rendered pairs with ampersands. -/
def joinAmp : List String → String
  | [] => ""
  | [s] => s
  | s :: s2 :: rest => s ++ "&" ++ joinAmp (s2 :: rest)

/-- Model of qs.stringify with default options on a flat object of scalars:
pairs in key insertion order, percent-encoded, joined with ampersands.
qs.stringify of null / undefined / an empty object is the empty string. -/
def qsStringify (m : PostBody) : String :=
  joinAmp (m.map encodePair)

/-- Model of crypto.createHmac("sha256", secret).update(message)
.digest("hex").  The real hash is opaque here; it is modelled as an
abstract deterministic function of the key and the hashed bytes, so the
theorems below can depend on WHICH bytes are hashed but never on the
value of the hash. -/
def hmacSha256Hex (secret message : String) : String :=
  secret ++ ":" ++ message

/-- interface ISignature. -/
structure ISignature where
  digest : String
  body : PostBody
deriving DecidableEq, Repr

/-- interface IApiAuth. -/
structure IApiAuth where
  publicKey : String
  privateKey : String
deriving DecidableEq, Repr

/-- The credential-holding state of a raw agent (the auth field of the
object returned by getRawAgent); auth is optional. -/
structure Agent where
  auth : Option IApiAuth
deriving DecidableEq, Repr

/-- upgrade(newAuth): this.auth = newAuth (unconditional replacement). -/
def upgrade (ag : Agent) (newAuth : IApiAuth) : Agent :=
  { ag with auth := some newAuth }

/-- A JavaScript runtime value, used where the source relies on untyped JS
behaviour: the error object reaching privateRequest's catch block, and the
value actually returned by isUpgraded(). -/
inductive JsValue where
  | undef
  | vnull
  | vbool (b : Bool)
  | vnum (n : Int)
  | vstr (s : String)
  | vobj (fields : List (String × JsValue))

/-- JS property access: reading a property of undefined or null throws a
TypeError (none); reading a missing property of an object, or any property
of another primitive, yields undefined. -/
def getProp : JsValue → String → Option JsValue
  | JsValue.undef, _ => none
  | JsValue.vnull, _ => none
  | JsValue.vobj fields, k => some ((lookupKV fields k).getD JsValue.undef)
  | JsValue.vbool _, _ => some JsValue.undef
  | JsValue.vnum _, _ => some JsValue.undef
  | JsValue.vstr _, _ => some JsValue.undef

/-- JS truthiness. -/
def truthy : JsValue → Bool
  | JsValue.undef => false
  | JsValue.vnull => false
  | JsValue.vbool b => b
  | JsValue.vnum n => decide (n ≠ 0)
  | JsValue.vstr s => decide (s ≠ "")
  | JsValue.vobj _ => true

/-- Is the value an actual JS boolean? -/
def JsValue.isBoolean : JsValue → Bool
  | JsValue.vbool _ => true
  | _ => false

/-- The catch block of privateRequest (identical in both variants):
evaluates
  err.response.data.error || err.response.data || err.response || err
left to right with JS property-access semantics.  Except.error () models a
TypeError thrown inside the catch block (which then becomes the rejection
of the returned promise); Except.ok v models rejecting the promise with
the normalized value v. -/
def catchBlock (err : JsValue) : Except Unit JsValue :=
  match getProp err "response" with
  | none => Except.error ()
  | some r =>
    match getProp r "data" with
    | none => Except.error ()
    | some d =>
      match getProp d "error" with
      | none => Except.error ()
      | some e =>
        Except.ok (if truthy e then e
                   else if truthy d then d
                   else if truthy r then r
                   else err)

/-- What isUpgraded() actually returns at runtime: the statement is
return this.auth, so the caller receives the credential object itself when
one is stored and undefined otherwise (the declared return type is
boolean). -/
def isUpgradedJs (ag : Agent) : JsValue :=
  match ag.auth with
  | some a => JsValue.vobj [("publicKey", JsValue.vstr a.publicKey),
                            ("privateKey", JsValue.vstr a.privateKey)]
  | none => JsValue.undef

/-- The subset of an AxiosRequestConfig / IBinanceRequestConfig override
that the modelled code paths read or forward; every field is optional
because a JS override object carries only the keys the caller wrote. -/
structure RequestConfigOverride where
  headers : Option (List (String × Value)) := none
  method : Option String := none
  url : Option String := none
  data : Option PostBody := none
  baseURL : Option String := none
  timeout : Option Int := none
  rootUrl : Option String := none
  version : Option String := none
  recvWindow : Option Int := none
deriving DecidableEq, Repr

/-- The local config object of each request method:
const config = { ...defaultConfig, ...configOverride }.  Fields present in
defaultConfig are always present afterwards; the remaining fields are
present exactly when the override supplied them. -/
structure EffectiveConfig where
  rootUrl : String
  timeout : Int
  version : String
  recvWindow : Option Int
  headers : Option (List (String × Value))
  method : Option String
  url : Option String
  data : Option PostBody
  baseURL : Option String
deriving DecidableEq, Repr

/-- The fully composed transport options object (agentConfig) handed to
axios.  data = none models the absence of a request body (a null or
missing data key).  The rootUrl / version / recvWindow keys of the local
config object leak into this object through the final spread and are kept
for faithfulness; axios ignores them.  The validateStatus function of the
recvWindow variant is not modelled (no claim concerns it). -/
structure RequestDescriptor where
  baseURL : String
  headers : List (String × Value)
  method : String
  url : String
  data : Option PostBody
  timeout : Int
  rootUrl : String
  version : String
  recvWindow : Option Int
deriving DecidableEq, Repr

/-- Descriptor success test for a private call result. -/
def exceptOk (r : Except String RequestDescriptor) : Bool :=
  match r with
  | Except.ok _ => true
  | Except.error _ => false

/-- Headers of a produced descriptor (empty list when the call rejected
before transport). -/
def headersE (r : Except String RequestDescriptor) : List (String × Value) :=
  match r with
  | Except.ok d => d.headers
  | Except.error _ => []

/-- Body of a produced descriptor. -/
def dataE (r : Except String RequestDescriptor) : Option PostBody :=
  match r with
  | Except.ok d => d.data
  | Except.error _ => none

/-- Url of a produced descriptor. -/
def urlE (r : Except String RequestDescriptor) : String :=
  match r with
  | Except.ok d => d.url
  | Except.error _ => ""

/-- Method of a produced descriptor. -/
def methodE (r : Except String RequestDescriptor) : String :=
  match r with
  | Except.ok d => d.method
  | Except.error _ => ""

namespace V1

/-- Default configuration of the basic variant. -/
def defaultConfig : EffectiveConfig :=
  { rootUrl := "https://api.binance.com"
    timeout := 3000
    version := "v3"
    recvWindow := none
    headers := none, method := none, url := none, data := none
    baseURL := none }

/-- Headers of defaultAgentConfig in the basic variant (Content-Length is
the JS number 0). -/
def defaultAgentHeaders : List (String × Value) :=
  [("Cache-Control", Value.str "no-cache"),
   ("Content-Length", Value.num 0),
   ("Content-Type", Value.str "text/plain"),
   ("User-Agent",
    Value.str "Binance API Client (binance-cryptoexchange-api node package)")]

/-- const config = { ...defaultConfig, ...configOverride }. -/
def mkConfig (ov : Option RequestConfigOverride) : EffectiveConfig :=
  let o := ov.getD {}
  { rootUrl := o.rootUrl.getD defaultConfig.rootUrl
    timeout := o.timeout.getD defaultConfig.timeout
    version := o.version.getD defaultConfig.version
    recvWindow := o.recvWindow
    headers := o.headers
    method := o.method
    url := o.url
    data := o.data
    baseURL := o.baseURL }

/-- signMessage of the basic variant; now is the value of Date.now() at
the moment of the call. -/
def signMessage (now : Int) (postData : PostBody) (secret : String) :
    ISignature :=
  let timestamp := now
  let signedBody := jsInsert postData "timestamp" (Value.num timestamp)
  let digest := hmacSha256Hex secret (qsStringify signedBody)
  let body := jsInsert signedBody "signature" (Value.str digest)
  { digest := digest, body := body }

/-- publicRequest of the basic variant up to the transport call: the
agentConfig object handed to axios.  queryParams = [] models both an
empty object and an absent / null argument (qs.stringify is "" for all
of them).  agentConfig = { ...publicAgentConfig, url: uri, ...config },
so override keys present in config win over the keys written before the
final spread. -/
def publicRequest (endpoint : String) (queryParams : PostBody)
    (configOverride : Option RequestConfigOverride) : RequestDescriptor :=
  let config := mkConfig configOverride
  let uri := "/" ++ endpoint ++ "?" ++ qsStringify queryParams
  { baseURL := config.baseURL.getD defaultConfig.rootUrl
    headers := config.headers.getD defaultAgentHeaders
    method := config.method.getD "GET"
    url := config.url.getD uri
    data := config.data
    timeout := config.timeout
    rootUrl := config.rootUrl
    version := config.version
    recvWindow := config.recvWindow }

/-- privateRequest of the basic variant up to the transport call.
Except.error models an immediate promise rejection before any transport
invocation; Except.ok carries the agentConfig handed to axios.
agentConfig = { ...privateAgentConfig, headers, method, url: uri,
data: postData, ...config }: every key present in config (defaults plus
override keys) is spread last and therefore wins. -/
def privateRequest (ag : Agent) (endpoint method : String)
    (params : PostBody) (configOverride : Option RequestConfigOverride)
    (now : Int) : Except String RequestDescriptor :=
  match ag.auth with
  | none => Except.error "api keys are required to access private endpoints"
  | some auth =>
    let config := mkConfig configOverride
    let signatureData := signMessage now params auth.privateKey
    let headersOverride := config.headers
    let headers :=
      jsSpread (jsInsert defaultAgentHeaders "X-MBX-APIKEY"
                  (Value.str auth.publicKey))
               (headersOverride.getD [])
    let data := signatureData.body
    let postData := if method = "GET" then none else some data
    let uri := if method = "GET"
               then "/" ++ endpoint ++ "?" ++ qsStringify data
               else "/" ++ endpoint
    Except.ok
      { baseURL := config.baseURL.getD defaultConfig.rootUrl
        headers := config.headers.getD headers
        method := config.method.getD method
        url := config.url.getD uri
        data := match config.data with
                | some d => some d
                | none => postData
        timeout := config.timeout
        rootUrl := config.rootUrl
        version := config.version
        recvWindow := config.recvWindow }

end V1

namespace V2

/-- Default configuration of the recvWindow variant. -/
def defaultConfig : EffectiveConfig :=
  { rootUrl := "https://api.binance.com"
    timeout := 3000
    version := "v3"
    recvWindow := some 5000
    headers := none, method := none, url := none, data := none
    baseURL := none }

/-- Headers of defaultAgentConfig in the recvWindow variant. -/
def defaultAgentHeaders : List (String × Value) :=
  [("Cache-Control", Value.str "no-cache"),
   ("Content-Length", Value.num 0),
   ("Content-Type", Value.str "application/x-www-form-urlencoded"),
   ("User-Agent",
    Value.str "Binance API Client (binance-cryptoexchange-api node package)")]

/-- const config = { ...defaultConfig, ...configOverride }. -/
def mkConfig (ov : Option RequestConfigOverride) : EffectiveConfig :=
  let o := ov.getD {}
  { rootUrl := o.rootUrl.getD defaultConfig.rootUrl
    timeout := o.timeout.getD defaultConfig.timeout
    version := o.version.getD defaultConfig.version
    recvWindow := some (o.recvWindow.getD 5000)
    headers := o.headers
    method := o.method
    url := o.url
    data := o.data
    baseURL := o.baseURL }

/-- signMessage of the recvWindow variant: injects timestamp and then the
static defaultConfig.recvWindow (always 5000, read from the module
constant, not from any override). -/
def signMessage (now : Int) (postData : PostBody) (secret : String) :
    ISignature :=
  let timestamp := now
  let recvWindow : Int := 5000
  let signedBody :=
    jsInsert (jsInsert postData "timestamp" (Value.num timestamp))
             "recvWindow" (Value.num recvWindow)
  let digest := hmacSha256Hex secret (qsStringify signedBody)
  let body := jsInsert signedBody "signature" (Value.str digest)
  { digest := digest, body := body }

/-- publicRequest of the recvWindow variant up to the transport call. -/
def publicRequest (endpoint : String) (queryParams : PostBody)
    (configOverride : Option RequestConfigOverride) : RequestDescriptor :=
  let config := mkConfig configOverride
  let uri := "/" ++ endpoint ++ "?" ++ qsStringify queryParams
  { baseURL := config.baseURL.getD defaultConfig.rootUrl
    headers := config.headers.getD defaultAgentHeaders
    method := config.method.getD "GET"
    url := config.url.getD uri
    data := config.data
    timeout := config.timeout
    rootUrl := config.rootUrl
    version := config.version
    recvWindow := config.recvWindow }

/-- privateRequest of the recvWindow variant up to the transport call.
The signed data is always serialized into the url query string, no data
key is written by the method itself (a body exists only when a caller
override supplies one), and agentConfig = { ...privateAgentConfig,
headers, method, url: uri, ...config } again spreads config last. -/
def privateRequest (ag : Agent) (endpoint method : String)
    (params : PostBody) (configOverride : Option RequestConfigOverride)
    (now : Int) : Except String RequestDescriptor :=
  match ag.auth with
  | none => Except.error "api keys are required to access private endpoints"
  | some auth =>
    let config := mkConfig configOverride
    let signatureData := signMessage now params auth.privateKey
    let headersOverride := config.headers
    let headers :=
      jsSpread (jsInsert defaultAgentHeaders "X-MBX-APIKEY"
                  (Value.str auth.publicKey))
               (headersOverride.getD [])
    let data := signatureData.body
    let uri := "/" ++ endpoint ++ "?" ++ qsStringify data
    Except.ok
      { baseURL := config.baseURL.getD defaultConfig.rootUrl
        headers := config.headers.getD headers
        method := config.method.getD method
        url := config.url.getD uri
        data := config.data
        timeout := config.timeout
        rootUrl := config.rootUrl
        version := config.version
        recvWindow := config.recvWindow }

end V2

theorem keysMem_eq_isSome {α : Type} (m : List (String × α)) (k : String) :
    keysMem m k = (lookupKV m k).isSome := by
  induction m with
  | nil => rfl
  | cons p rest ih =>
    by_cases hp : p.1 = k <;> simp [keysMem, lookupKV, hp, ih]

theorem lookupKV_append_of_none {α : Type} {m : List (String × α)}
    (l : List (String × α)) {k : String} (h : lookupKV m k = none) :
    lookupKV (m ++ l) k = lookupKV l k := by
  induction m with
  | nil => rfl
  | cons p rest ih =>
    by_cases hp : p.1 = k
    · simp [lookupKV, hp] at h
    · simp only [lookupKV, if_neg hp] at h ⊢
      exact ih h

theorem lookupKV_append_of_some {α : Type} {m : List (String × α)}
    (l : List (String × α)) {k : String} {w : α}
    (h : lookupKV m k = some w) : lookupKV (m ++ l) k = some w := by
  induction m with
  | nil => simp [lookupKV] at h
  | cons p rest ih =>
    by_cases hp : p.1 = k
    · simp only [lookupKV, if_pos hp] at h ⊢
      exact h
    · simp only [lookupKV, if_neg hp] at h ⊢
      exact ih h

theorem lookupKV_map_replace_self {α : Type} (m : List (String × α))
    (k : String) (v : α) (h : keysMem m k = true) :
    lookupKV (m.map (fun p => if p.1 = k then (k, v) else p)) k = some v := by
  induction m with
  | nil => simp [keysMem] at h
  | cons p rest ih =>
    by_cases hp : p.1 = k
    · simp [lookupKV, hp]
    · simp only [keysMem, if_neg hp] at h
      simp [lookupKV, hp, ih h]

theorem lookupKV_map_replace_ne {α : Type} (m : List (String × α))
    (k k2 : String) (v : α) (h : k2 ≠ k) :
    lookupKV (m.map (fun p => if p.1 = k then (k, v) else p)) k2 =
      lookupKV m k2 := by
  induction m with
  | nil => rfl
  | cons p rest ih =>
    by_cases hp : p.1 = k
    · have hpk2 : p.1 ≠ k2 := by rw [hp]; exact h.symm
      simp [lookupKV, hp, h.symm, hpk2, ih]
    · by_cases hp2 : p.1 = k2 <;> simp [lookupKV, hp, hp2, h, ih]

theorem lookupKV_jsInsert_self {α : Type} (m : List (String × α))
    (k : String) (v : α) : lookupKV (jsInsert m k v) k = some v := by
  unfold jsInsert
  by_cases h : keysMem m k
  · simpa [h] using lookupKV_map_replace_self m k v h
  · have hnone : lookupKV m k = none := by
      cases hl : lookupKV m k with
      | none => rfl
      | some w => exact absurd (by rw [keysMem_eq_isSome, hl]; rfl) h
    simp only [h, Bool.false_eq_true, if_false]
    rw [lookupKV_append_of_none _ hnone]
    simp [lookupKV]

theorem lookupKV_jsInsert_ne {α : Type} (m : List (String × α))
    (k k2 : String) (v : α) (h : k2 ≠ k) :
    lookupKV (jsInsert m k v) k2 = lookupKV m k2 := by
  unfold jsInsert
  by_cases hm : keysMem m k
  · simp only [hm, if_true]
    exact lookupKV_map_replace_ne m k k2 v h
  · simp only [hm, Bool.false_eq_true, if_false]
    cases hl : lookupKV m k2 with
    | some w => exact lookupKV_append_of_some _ hl
    | none =>
      rw [lookupKV_append_of_none _ hl]
      simp [lookupKV, h.symm]

theorem keysMem_jsInsert {α : Type} (m : List (String × α)) (k k2 : String)
    (v : α) :
    keysMem (jsInsert m k v) k2 = (keysMem m k2 || decide (k2 = k)) := by
  by_cases h : k2 = k
  · subst h
    rw [keysMem_eq_isSome, lookupKV_jsInsert_self]
    simp
  · rw [keysMem_eq_isSome, lookupKV_jsInsert_ne m k k2 v h,
        ← keysMem_eq_isSome]
    simp [h]

theorem length_jsInsert {α : Type} (m : List (String × α)) (k : String)
    (v : α) :
    (jsInsert m k v).length =
      if keysMem m k then m.length else m.length + 1 := by
  unfold jsInsert
  by_cases h : keysMem m k <;> simp [h]

theorem jsErase_cons {α : Type} (p : String × α) (rest : List (String × α))
    (k : String) :
    jsErase (p :: rest) k =
      if p.1 = k then jsErase rest k else p :: jsErase rest k := by
  by_cases hp : p.1 = k <;> simp [jsErase, List.filter_cons, hp]

theorem keysMem_jsErase {α : Type} (m : List (String × α)) (k k2 : String) :
    keysMem (jsErase m k) k2 = (keysMem m k2 && decide (k2 ≠ k)) := by
  induction m with
  | nil => simp [jsErase, keysMem]
  | cons p rest ih =>
    rw [jsErase_cons]
    by_cases hp : p.1 = k
    · by_cases hp2 : p.1 = k2
      · have hk : k2 = k := by rw [← hp2, hp]
        subst hk
        simp [keysMem, hp, hp2, ih]
      · have hk : k ≠ k2 := by rw [← hp]; exact hp2
        simp [keysMem, hp, hp2, hk, ih]
    · by_cases hp2 : p.1 = k2 <;> simp_all [keysMem, hp, hp2]

theorem jsErase_of_not_mem {α : Type} {m : List (String × α)} {k : String}
    (h : keysMem m k = false) : jsErase m k = m := by
  induction m with
  | nil => rfl
  | cons p rest ih =>
    by_cases hp : p.1 = k
    · simp [keysMem, hp] at h
    · simp only [keysMem, if_neg hp] at h
      rw [jsErase_cons, if_neg hp, ih h]

theorem length_jsErase {α : Type} {m : List (String × α)} {k : String}
    (hnd : keysNodup m) (h : keysMem m k = true) :
    (jsErase m k).length + 1 = m.length := by
  induction m with
  | nil => simp [keysMem] at h
  | cons p rest ih =>
    unfold keysNodup at hnd
    simp only [List.map_cons, List.nodup_cons] at hnd
    by_cases hp : p.1 = k
    · have hrest : keysMem rest k = false := by
        cases hr : keysMem rest k
        · rfl
        · exfalso
          apply hnd.1
          subst hp
          clear ih hnd h
          induction rest with
          | nil => simp [keysMem] at hr
          | cons q qs ihq =>
            by_cases hq : q.1 = p.1
            · simp [hq]
            · simp only [keysMem, if_neg hq] at hr
              simp [ihq hr]
      rw [jsErase_cons, if_pos hp, jsErase_of_not_mem hrest]
      simp
    · simp only [keysMem, if_neg hp] at h
      rw [jsErase_cons, if_neg hp]
      simp only [List.length_cons]
      rw [← ih hnd.2 h]

theorem length_pos_of_keysMem {α : Type} {m : List (String × α)}
    {k : String} (h : keysMem m k = true) : 1 ≤ m.length := by
  cases m with
  | nil => simp [keysMem] at h
  | cons p rest => simp

theorem length_jsInsert_succ {α : Type} (a b : List (String × α))
    (k : String) (v : α) (hm : keysMem a k = keysMem b k)
    (h : a.length = b.length + 1) :
    (jsInsert a k v).length = (jsInsert b k v).length + 1 := by
  rw [length_jsInsert, length_jsInsert, hm]
  cases keysMem b k <;> simp [h]

/-- Number of ampersand characters in a string; the qs pair separator is
the only unencoded ampersand, so this counts the serialized pairs. -/
def ampCount (s : String) : Nat := s.data.count '&'

theorem ampCount_append (a b : String) :
    ampCount (a ++ b) = ampCount a + ampCount b := by
  cases a with
  | mk la =>
    cases b with
    | mk lb => simp [ampCount, String.data, List.count_append]

theorem hexDigit_ne_amp (n : Nat) : hexDigit n ≠ '&' := by
  unfold hexDigit
  split <;> decide

theorem amp_not_unreserved : isUnreserved '&' = false := by decide

theorem encodeChar_count_amp (c : Char) : (encodeChar c).count '&' = 0 := by
  unfold encodeChar
  by_cases h : isUnreserved c
  · have hc : c ≠ '&' := by
      intro he
      rw [he, amp_not_unreserved] at h
      exact Bool.false_ne_true h
    simp [h, List.count_cons, hc]
  · simp only [h, Bool.false_eq_true, if_false]
    induction utf8Bytes c.toNat with
    | nil => rfl
    | cons b bs ih =>
      simp [List.flatMap_cons, List.count_append, List.count_cons, ih,
            hexDigit_ne_amp]

theorem ampCount_percentEncode (s : String) :
    ampCount (percentEncode s) = 0 := by
  show (s.data.flatMap encodeChar).count '&' = 0
  induction s.data with
  | nil => rfl
  | cons c cs ih =>
    simp [List.flatMap_cons, List.count_append, ih, encodeChar_count_amp]

theorem ampCount_encodePair (p : String × Value) :
    ampCount (encodePair p) = 0 := by
  unfold encodePair
  rw [ampCount_append, ampCount_append, ampCount_percentEncode,
      ampCount_percentEncode]
  rfl

theorem ampCount_joinAmp (l : List String)
    (h : ∀ s ∈ l, ampCount s = 0) (hne : l ≠ []) :
    ampCount (joinAmp l) = l.length - 1 := by
  induction l with
  | nil => exact absurd rfl hne
  | cons s rest ih =>
    cases rest with
    | nil => simpa [joinAmp] using h s (by simp)
    | cons s2 rest2 =>
      have hs : ampCount s = 0 := h s (by simp)
      have hrest : ∀ t ∈ s2 :: rest2, ampCount t = 0 := by
        intro t ht
        exact h t (by simp [ht])
      rw [joinAmp, ampCount_append, ampCount_append, hs,
          ih hrest (by simp)]
      simp [ampCount]
      omega

theorem ampCount_qsStringify (m : PostBody) (h : m ≠ []) :
    ampCount (qsStringify m) = m.length - 1 := by
  unfold qsStringify
  rw [ampCount_joinAmp]
  · simp
  · intro s hs
    rcases List.mem_map.mp hs with ⟨p, _, hp⟩
    rw [← hp]
    exact ampCount_encodePair p
  · simpa using h

theorem hmac_ne_of_ampCount_ne (secret m1 m2 : String)
    (h : ampCount m1 ≠ ampCount m2) :
    hmacSha256Hex secret m1 ≠ hmacSha256Hex secret m2 := by
  intro he
  apply h
  have h1 := congrArg ampCount he
  unfold hmacSha256Hex at h1
  rw [ampCount_append, ampCount_append, ampCount_append, ampCount_append]
    at h1
  omega

/-- Claim C1 is false as stated: signMessage does not keep every key of the
input body unchanged.  A body that already carries a timestamp key has its
value overwritten by the injected clock value (here clock 0 replaces the
caller's string "x"), in both variants. -/
theorem claim_C1_counterexample :
    lookupKV (V1.signMessage 0 [("timestamp", Value.str "x")] "s").body
        "timestamp" ≠ some (Value.str "x")
    ∧ lookupKV (V2.signMessage 0 [("timestamp", Value.str "x")] "s").body
        "timestamp" ≠ some (Value.str "x") := by
  constructor <;> decide

/-- Claim C1 (amended): for every body B and secret S, the returned body of
signMessage contains every key of B other than the injected fields
(timestamp, and in the recvWindow variant recvWindow, and signature)
unchanged, plus a timestamp field holding the clock value (and recvWindow
5000 in the later variant), plus a signature field, and the digest equals
the signature field of the returned body. -/
theorem claim_C1_amended (B : PostBody) (S : String) (t : Int) :
    (∀ k v, k ≠ "timestamp" → k ≠ "signature" → lookupKV B k = some v →
      lookupKV (V1.signMessage t B S).body k = some v)
    ∧ lookupKV (V1.signMessage t B S).body "timestamp"
        = some (Value.num t)
    ∧ lookupKV (V1.signMessage t B S).body "signature"
        = some (Value.str (V1.signMessage t B S).digest)
    ∧ (∀ k v, k ≠ "timestamp" → k ≠ "recvWindow" → k ≠ "signature" →
      lookupKV B k = some v →
      lookupKV (V2.signMessage t B S).body k = some v)
    ∧ lookupKV (V2.signMessage t B S).body "timestamp"
        = some (Value.num t)
    ∧ lookupKV (V2.signMessage t B S).body "recvWindow"
        = some (Value.num 5000)
    ∧ lookupKV (V2.signMessage t B S).body "signature"
        = some (Value.str (V2.signMessage t B S).digest) := by
  refine ⟨?_, ?_, ?_, ?_, ?_, ?_, ?_⟩
  · intro k v hk1 hk2 hB
    simp only [V1.signMessage]
    rw [lookupKV_jsInsert_ne _ _ _ _ hk2, lookupKV_jsInsert_ne _ _ _ _ hk1]
    exact hB
  · simp only [V1.signMessage]
    rw [lookupKV_jsInsert_ne _ _ _ _ (by decide), lookupKV_jsInsert_self]
  · simp only [V1.signMessage]
    rw [lookupKV_jsInsert_self]
  · intro k v hk1 hk2 hk3 hB
    simp only [V2.signMessage]
    rw [lookupKV_jsInsert_ne _ _ _ _ hk3, lookupKV_jsInsert_ne _ _ _ _ hk2,
        lookupKV_jsInsert_ne _ _ _ _ hk1]
    exact hB
  · simp only [V2.signMessage]
    rw [lookupKV_jsInsert_ne _ _ _ _ (by decide),
        lookupKV_jsInsert_ne _ _ _ _ (by decide), lookupKV_jsInsert_self]
  · simp only [V2.signMessage]
    rw [lookupKV_jsInsert_ne _ _ _ _ (by decide), lookupKV_jsInsert_self]
  · simp only [V2.signMessage]
    rw [lookupKV_jsInsert_self]

/-- Witness for the amended claim C1 at a concrete input. -/
theorem claim_C1_witness :
    lookupKV (V1.signMessage 0 [("a", Value.str "1")] "sec").body "a"
      = some (Value.str "1") :=
  (claim_C1_amended [("a", Value.str "1")] "sec" 0).1 "a" (Value.str "1")
    (by decide) (by decide) (by decide)

/-- Claim C2: on an agent whose auth field is absent, privateRequest of
either variant rejects immediately with the authentication-required
message, for every endpoint, method, body and config override; the
Except.error result is produced before any request descriptor is built,
so no transport invocation occurs. -/
theorem claim_C2 (endpoint method : String) (params : PostBody)
    (ov : Option RequestConfigOverride) (now : Int) :
    V1.privateRequest ⟨none⟩ endpoint method params ov now
      = Except.error "api keys are required to access private endpoints"
    ∧ V2.privateRequest ⟨none⟩ endpoint method params ov now
      = Except.error "api keys are required to access private endpoints" :=
  ⟨rfl, rfl⟩

/-- Claim C3 evaluation: the first two cases of the normalization chain
behave as claimed (a nested error field is preferred, then the payload),
but a rejection whose response lacks a data field, and a bare exception
with no response field at all, both make the catch block itself throw a
TypeError (the property chain is evaluated eagerly), so privateRequest
rejects with that TypeError instead of the response object or the bare
exception. -/
theorem claim_C3_eval :
    catchBlock (JsValue.vobj [("response", JsValue.vobj [("data",
        JsValue.vobj [("error", JsValue.vstr "INSUFFICIENT_FUNDS")])])])
      = Except.ok (JsValue.vstr "INSUFFICIENT_FUNDS")
    ∧ catchBlock (JsValue.vobj [("response", JsValue.vobj [("data",
        JsValue.vobj [("code", JsValue.vnum (-1))])])])
      = Except.ok (JsValue.vobj [("code", JsValue.vnum (-1))])
    ∧ catchBlock (JsValue.vobj [("response",
        JsValue.vobj [("status", JsValue.vnum 500)])])
      = Except.error ()
    ∧ catchBlock (JsValue.vobj [("message", JsValue.vstr "boom")])
      = Except.error () :=
  ⟨rfl, rfl, rfl, rfl⟩

/-- Claim C4 evaluation: a call-level headers override replaces the
composed headers wholesale instead of being merged into them, because the
final object spread puts the effective config (which then carries the
override's headers key) after the carefully merged headers; the default
headers and the X-MBX-APIKEY injection are lost.  A method-only override,
by contrast, leaves the merged headers (including the injected key)
intact, as the claim's second clause says. -/
theorem claim_C4_eval :
    headersE (V1.privateRequest ⟨some ⟨"pk", "sk"⟩⟩ "order" "POST" []
        (some { headers := some [("X-Test", Value.str "1")] }) 0)
      = [("X-Test", Value.str "1")]
    ∧ lookupKV (headersE (V1.privateRequest ⟨some ⟨"pk", "sk"⟩⟩ "order"
        "POST" [] (some { headers := some [("X-Test", Value.str "1")] }) 0))
        "X-MBX-APIKEY" = none
    ∧ headersE (V2.privateRequest ⟨some ⟨"pk", "sk"⟩⟩ "order" "POST" []
        (some { headers := some [("X-Test", Value.str "1")] }) 0)
      = [("X-Test", Value.str "1")]
    ∧ lookupKV (headersE (V1.privateRequest ⟨some ⟨"pk", "sk"⟩⟩ "order"
        "POST" [] (some { method := some "DELETE" }) 0)) "X-MBX-APIKEY"
      = some (Value.str "pk")
    ∧ methodE (V1.privateRequest ⟨some ⟨"pk", "sk"⟩⟩ "order" "POST" []
        (some { method := some "DELETE" }) 0) = "DELETE" := by
  refine ⟨?_, ?_, ?_, ?_, ?_⟩ <;> decide

/-- Claim C5 evaluation: upgrade replaces the stored pair unconditionally
(first conjunct, for every agent and pair), and a subsequent private call
signs with the new private key and carries X-MBX-APIKEY with the new
public key when no headers override is supplied; but a call-level headers
override wipes the injected key entirely, so the claim's phrase "every
subsequent privateRequest sets the X-MBX-APIKEY header to the new
publicKey" fails on such calls (last conjunct). -/
theorem claim_C5_eval :
    (∀ (ag : Agent) (na : IApiAuth), (upgrade ag na).auth = some na)
    ∧ lookupKV (headersE (V1.privateRequest (upgrade ⟨none⟩ ⟨"pk2", "sk2"⟩)
        "o" "POST" [] none 0)) "X-MBX-APIKEY" = some (Value.str "pk2")
    ∧ dataE (V1.privateRequest (upgrade ⟨none⟩ ⟨"pk2", "sk2"⟩) "o" "POST"
        [] none 0) = some (V1.signMessage 0 [] "sk2").body
    ∧ lookupKV (V1.signMessage 0 [] "sk2").body "signature"
        = some (Value.str (hmacSha256Hex "sk2" "timestamp=0"))
    ∧ lookupKV (headersE (V1.privateRequest (upgrade ⟨none⟩ ⟨"pk2", "sk2"⟩)
        "o" "POST" [] (some { headers := some [("X-Test", Value.str "1")] })
        0)) "X-MBX-APIKEY" = none := by
  refine ⟨fun ag na => rfl, ?_, ?_, ?_, ?_⟩ <;> decide

/-- Claim C6 is false as stated: in the recvWindow variant a private POST
does not send the signed data as the request body; the descriptor carries
no body at all and the signed data sits in the url query string. -/
theorem claim_C6_counterexample :
    dataE (V2.privateRequest ⟨some ⟨"pk", "sk"⟩⟩ "order" "POST" [] none 0)
      = none
    ∧ exceptOk (V2.privateRequest ⟨some ⟨"pk", "sk"⟩⟩ "order" "POST" []
        none 0) = true
    ∧ urlE (V2.privateRequest ⟨some ⟨"pk", "sk"⟩⟩ "order" "POST" [] none 0)
      = "/order?" ++ qsStringify (V2.signMessage 0 [] "sk").body := by
  refine ⟨?_, ?_, ?_⟩ <;> rfl

/-- Claim C6 (amended): in the basic variant, a private GET serializes the
signed data into the query string and sends no body, and every other verb
sends the signed data as the body with a bare path; in the recvWindow
variant the signed data is always serialized into the query string and
the method itself never sets a body, for all verbs.  Stated for calls
without a config override (an override may supply its own data key). -/
theorem claim_C6_amended (a : IApiAuth) (endpoint method : String)
    (params : PostBody) (now : Int) :
    (method = "GET" →
      dataE (V1.privateRequest ⟨some a⟩ endpoint method params none now)
        = none
      ∧ urlE (V1.privateRequest ⟨some a⟩ endpoint method params none now)
        = "/" ++ endpoint ++ "?"
          ++ qsStringify (V1.signMessage now params a.privateKey).body)
    ∧ (method ≠ "GET" →
      dataE (V1.privateRequest ⟨some a⟩ endpoint method params none now)
        = some (V1.signMessage now params a.privateKey).body
      ∧ urlE (V1.privateRequest ⟨some a⟩ endpoint method params none now)
        = "/" ++ endpoint)
    ∧ dataE (V2.privateRequest ⟨some a⟩ endpoint method params none now)
        = none
    ∧ urlE (V2.privateRequest ⟨some a⟩ endpoint method params none now)
        = "/" ++ endpoint ++ "?"
          ++ qsStringify (V2.signMessage now params a.privateKey).body := by
  refine ⟨?_, ?_, ?_, ?_⟩
  · intro hm
    subst hm
    exact ⟨rfl, rfl⟩
  · intro hm
    constructor
    · simp [V1.privateRequest, V1.mkConfig, dataE, hm]
    · simp [V1.privateRequest, V1.mkConfig, urlE, hm]
  · rfl
  · rfl

/-- Witness for the amended claim C6 at concrete GET and POST calls. -/
theorem claim_C6_witness :
    dataE (V1.privateRequest ⟨some ⟨"pk", "sk"⟩⟩ "o" "GET" [] none 0) = none
    ∧ dataE (V1.privateRequest ⟨some ⟨"pk", "sk"⟩⟩ "o" "POST" [] none 0)
        = some (V1.signMessage 0 [] "sk").body :=
  ⟨((claim_C6_amended ⟨"pk", "sk"⟩ "o" "GET" [] 0).1 rfl).1,
   ((claim_C6_amended ⟨"pk", "sk"⟩ "o" "POST" [] 0).2.1 (by decide)).1⟩

/-- Claim C7 evaluation: the value isUpgraded() actually returns is the
stored credential object itself (or undefined when none is stored), never
a JS boolean, although its truthiness does coincide with whether a
credential pair is stored (first conjunct). -/
theorem claim_C7_eval :
    (∀ ag : Agent, truthy (isUpgradedJs ag) = ag.auth.isSome)
    ∧ (isUpgradedJs ⟨some ⟨"pk", "sk"⟩⟩).isBoolean = false
    ∧ (isUpgradedJs ⟨none⟩).isBoolean = false := by
  refine ⟨?_, rfl, rfl⟩
  intro ag
  cases ag with
  | mk a => cases a <;> rfl

/-- Claim C8: with the clock made an explicit parameter (the substitution
point for Date.now), signMessage of either variant is deterministic: two
calls with the same frozen clock value and the same body and secret
produce identical digests. -/
theorem claim_C8 (B : PostBody) (S : String) (t1 t2 : Int) (h : t1 = t2) :
    (V1.signMessage t1 B S).digest = (V1.signMessage t2 B S).digest
    ∧ (V2.signMessage t1 B S).digest = (V2.signMessage t2 B S).digest := by
  subst h
  exact ⟨rfl, rfl⟩

/-- Witness for claim C8 at a concrete frozen clock. -/
theorem claim_C8_witness :
    (V1.signMessage 5 [] "s").digest = (V1.signMessage 5 [] "s").digest :=
  (claim_C8 [] "s" 5 5 rfl).1

/-- Claim C9: publicRequest of either variant, called without a config
override, produces a descriptor with method GET, no request body, and a
url equal to the endpoint path followed by a question mark and the
serialized query parameters; the serialization happens even for empty
parameters, leaving a trailing question mark. -/
theorem claim_C9 :
    (∀ (endpoint : String) (qp : PostBody),
      (V1.publicRequest endpoint qp none).method = "GET"
      ∧ (V1.publicRequest endpoint qp none).data = none
      ∧ (V1.publicRequest endpoint qp none).url
          = "/" ++ endpoint ++ "?" ++ qsStringify qp
      ∧ (V2.publicRequest endpoint qp none).method = "GET"
      ∧ (V2.publicRequest endpoint qp none).data = none
      ∧ (V2.publicRequest endpoint qp none).url
          = "/" ++ endpoint ++ "?" ++ qsStringify qp)
    ∧ (V1.publicRequest "ticker" [("symbol", Value.str "BTCUSDT")] none).url
        = "/ticker?symbol=BTCUSDT"
    ∧ (V1.publicRequest "ticker" [] none).url = "/ticker?" := by
  refine ⟨fun e qp => ⟨rfl, rfl, rfl, rfl, rfl, rfl⟩, by decide, by decide⟩

/-- Claim C10: when the input body already carries a signature key, the
digest is computed over a serialization that still contains the caller's
stale signature value (the timestamp injection leaves it untouched), only
the returned body's signature field is replaced by the fresh digest, and
the digest differs from the one obtained by signing the same body with
the signature key removed, under the same clock value, in both variants
(in the model the hash is an injective function of the hashed bytes, and
the two serialized byte sequences provably differ: they contain different
numbers of pair separators). -/
theorem claim_C10 (B : PostBody) (S : String) (t : Int) (v0 : Value)
    (hnd : keysNodup B) (hsig : lookupKV B "signature" = some v0) :
    (V1.signMessage t B S).digest
      = hmacSha256Hex S (qsStringify (jsInsert B "timestamp" (Value.num t)))
    ∧ lookupKV (jsInsert B "timestamp" (Value.num t)) "signature" = some v0
    ∧ lookupKV (V1.signMessage t B S).body "signature"
        = some (Value.str (V1.signMessage t B S).digest)
    ∧ (V1.signMessage t B S).digest
        ≠ (V1.signMessage t (jsErase B "signature") S).digest
    ∧ (V2.signMessage t B S).digest
        ≠ (V2.signMessage t (jsErase B "signature") S).digest := by
  have hmem : keysMem B "signature" = true := by
    rw [keysMem_eq_isSome, hsig]
    rfl
  have hlen : (jsErase B "signature").length + 1 = B.length :=
    length_jsErase hnd hmem
  have hts : keysMem (jsErase B "signature") "timestamp"
      = keysMem B "timestamp" := by
    rw [keysMem_jsErase]
    simp
  have h1 : (jsInsert B "timestamp" (Value.num t)).length
      = (jsInsert (jsErase B "signature") "timestamp" (Value.num t)).length
        + 1 :=
    length_jsInsert_succ _ _ _ _ hts.symm (by omega)
  have h2 : 1 ≤ (jsInsert (jsErase B "signature") "timestamp"
      (Value.num t)).length := by
    apply length_pos_of_keysMem (k := "timestamp")
    rw [keysMem_jsInsert]
    simp
  have hampne : ampCount (qsStringify (jsInsert B "timestamp"
        (Value.num t)))
      ≠ ampCount (qsStringify (jsInsert (jsErase B "signature") "timestamp"
        (Value.num t))) := by
    rw [ampCount_qsStringify _ (by
          intro hn
          rw [hn] at h1
          simp at h1),
        ampCount_qsStringify _ (by
          intro hn
          rw [hn] at h2
          simp at h2)]
    omega
  refine ⟨rfl, ?_, ?_, ?_, ?_⟩
  · rw [lookupKV_jsInsert_ne _ _ _ _ (by decide)]
    exact hsig
  · simp only [V1.signMessage]
    rw [lookupKV_jsInsert_self]
  · exact hmac_ne_of_ampCount_ne S _ _ hampne
  · -- recvWindow variant: one more injection on both sides, the pair
    -- counts still differ by one
    have hrw : keysMem (jsInsert B "timestamp" (Value.num t)) "recvWindow"
        = keysMem (jsInsert (jsErase B "signature") "timestamp"
            (Value.num t)) "recvWindow" := by
      rw [keysMem_jsInsert, keysMem_jsInsert, keysMem_jsErase]
      simp
    have h1' : (jsInsert (jsInsert B "timestamp" (Value.num t)) "recvWindow"
          (Value.num 5000)).length
        = (jsInsert (jsInsert (jsErase B "signature") "timestamp"
            (Value.num t)) "recvWindow" (Value.num 5000)).length + 1 :=
      length_jsInsert_succ _ _ _ _ hrw h1
    have h2' : 1 ≤ (jsInsert (jsInsert (jsErase B "signature") "timestamp"
        (Value.num t)) "recvWindow" (Value.num 5000)).length := by
      apply length_pos_of_keysMem (k := "recvWindow")
      rw [keysMem_jsInsert]
      simp
    have hampne2 : ampCount (qsStringify (jsInsert (jsInsert B "timestamp"
          (Value.num t)) "recvWindow" (Value.num 5000)))
        ≠ ampCount (qsStringify (jsInsert (jsInsert (jsErase B "signature")
          "timestamp" (Value.num t)) "recvWindow" (Value.num 5000))) := by
      rw [ampCount_qsStringify _ (by
            intro hn
            rw [hn] at h1'
            simp at h1'),
          ampCount_qsStringify _ (by
            intro hn
            rw [hn] at h2'
            simp at h2')]
      omega
    exact hmac_ne_of_ampCount_ne S _ _ hampne2

/-- Witness for claim C10 at a concrete body already holding a stale
signature. -/
theorem claim_C10_witness :
    (V1.signMessage 0 [("signature", Value.str "stale")] "s").digest
      ≠ (V1.signMessage 0
          (jsErase [("signature", Value.str "stale")] "signature")
          "s").digest :=
  (claim_C10 [("signature", Value.str "stale")] "s" 0 (Value.str "stale")
    (by simp [keysNodup]) (by decide)).2.2.2.1
